import Mathlib

/-!
Verification of the theme-insight pipeline (backend/generate_theme_insight2.py,
backend/generate_theme_insights.py, backend/routes/analysis.py).

The pure algorithmic parts (sampling, bullet parsing, clustering bookkeeping,
JSON-result coercion, orchestration control flow) are embedded as executable
Lean definitions.  External capabilities (the chat-completion call, the
embedding call, the KMeans fit) are modelled as oracle parameters: each call
site receives the outcome (success payload or failure) of the corresponding
external call, since the pipeline's behaviour is a pure function of those
outcomes.  Python exceptions are modelled with `Option`/`Except`; `float`
cursor arithmetic in the sampler is modelled with exact rationals `ℚ`
(Python's `int()` truncation toward zero is `pyInt` below).
-/

namespace ThemeInsight

/-! ### Sampler (`_evenly_sample` / `_select_diverse_samples`)

Python source:
```
if len(items) <= max_samples: return items[:]
samples = []; step = len(items) / max_samples;  idx = 0.0; used = set()
for _ in range(max_samples):
    pos = int(idx)
    while pos in used and pos < len(items) - 1: pos += 1
    samples.append(items[pos]); used.add(pos); idx += step
return samples
```
`step = len(items) / max_samples` raises `ZeroDivisionError` when
`max_samples = 0` (and `len(items) > 0`); this is the `none` result below. -/

/-- Python `int()` on a float: truncation toward zero. -/
def pyInt (q : ℚ) : ℤ := if q < 0 then -⌊-q⌋ else ⌊q⌋

/-- The collision-avoidance loop: `while pos in used and pos < bound: pos += 1`
(with `bound = len(items) - 1`). -/
def advancePos (used : List ℕ) (bound : ℕ) (pos : ℕ) : ℕ :=
  if h : pos ∈ used ∧ pos < bound then advancePos used bound (pos + 1) else pos
termination_by bound - pos
decreasing_by omega

/-- The index-selection loop of `_evenly_sample`: one recursive step per output
slot, carrying the floating cursor `idx` and the `used` set. -/
def sampleIdxAux (len : ℕ) (step : ℚ) : ℕ → ℚ → List ℕ → List ℕ
  | 0, _, _ => []
  | m + 1, idx, used =>
    let pos := advancePos used (len - 1) (pyInt idx).toNat
    pos :: sampleIdxAux len step m (idx + step) (pos :: used)

/-- The indices `_evenly_sample` visits for a list of length `len` and cap
`maxSamples` (only meaningful when `0 < maxSamples < len`). -/
def sample_indices (len maxSamples : ℕ) : List ℕ :=
  sampleIdxAux len ((len : ℚ) / (maxSamples : ℚ)) maxSamples 0 []

/-- The same indices computed with no collision avoidance at all: slot `k`
takes `int(k * step)` directly. -/
def naive_indices (len maxSamples : ℕ) : List ℕ :=
  (List.range maxSamples).map
    (fun (k : ℕ) => (pyInt ((k : ℚ) * ((len : ℚ) / (maxSamples : ℚ)))).toNat)

/-- `_evenly_sample(items, max_samples)`.  `none` models the
`ZeroDivisionError` raised when `max_samples = 0` and the list is longer than
the cap.  `dflt` is the out-of-range element default (never used: all selected
indices are in range). -/
def evenly_sample {α : Type} (items : List α) (maxSamples : ℕ) (dflt : α) :
    Option (List α) :=
  if items.length ≤ maxSamples then some items
  else if maxSamples = 0 then none
  else some ((sample_indices items.length maxSamples).map (fun i => items.getD i dflt))

/-! #### Sampler lemmas -/

theorem sampleIdxAux_length (len : ℕ) (step : ℚ) :
    ∀ (m : ℕ) (idx : ℚ) (used : List ℕ), (sampleIdxAux len step m idx used).length = m := by
  intro m
  induction m with
  | zero => intro idx used; rfl
  | succ m ih => intro idx used; simp [sampleIdxAux, ih]

theorem pyInt_of_nonneg {q : ℚ} (h : 0 ≤ q) : pyInt q = ⌊q⌋ := by
  unfold pyInt
  rw [if_neg (not_lt.mpr h)]

theorem advancePos_no_collision (used : List ℕ) (bound pos : ℕ) (h : pos ∉ used) :
    advancePos used bound pos = pos := by
  unfold advancePos
  rw [dif_neg]
  intro hc
  exact h hc.1

/-- Core closed form: if the cursor is nonnegative, the step exceeds `1`, and
everything already used lies strictly below the current floor, then the loop
never needs the collision-avoidance advance and slot `k` picks index
`⌊idx + k·step⌋`. -/
theorem sampleIdxAux_closed_form (len : ℕ) (step : ℚ) (hstep : 1 < step) :
    ∀ (m : ℕ) (idx : ℚ) (used : List ℕ), 0 ≤ idx →
      (∀ u ∈ used, u < (⌊idx⌋).toNat) →
      sampleIdxAux len step m idx used
        = (List.range m).map (fun (k : ℕ) => (⌊idx + (k : ℚ) * step⌋).toNat) := by
  intro m
  induction m with
  | zero => intro idx used _ _; rfl
  | succ m ih =>
    intro idx used hidx hused
    have hfl0 : (0 : ℤ) ≤ ⌊idx⌋ := Int.floor_nonneg.mpr hidx
    have hnotmem : (⌊idx⌋).toNat ∉ used := fun hmem => lt_irrefl _ (hused _ hmem)
    have hnext : ⌊idx⌋ + 1 ≤ ⌊idx + step⌋ := by
      have h1 : idx + 1 ≤ idx + step := by linarith
      calc ⌊idx⌋ + 1 = ⌊idx + 1⌋ := (Int.floor_add_one idx).symm
        _ ≤ ⌊idx + step⌋ := Int.floor_le_floor h1
    have hidx' : (0 : ℚ) ≤ idx + step := by linarith
    have hused' : ∀ u ∈ ((⌊idx⌋).toNat :: used), u < (⌊idx + step⌋).toNat := by
      intro u hu
      rcases List.mem_cons.mp hu with h | h
      · subst h; omega
      · have := hused u h; omega
    simp only [sampleIdxAux]
    rw [pyInt_of_nonneg hidx, advancePos_no_collision _ _ _ hnotmem,
      ih (idx + step) _ hidx' hused']
    rw [List.range_succ_eq_map, List.map_cons, List.map_map]
    congr 1
    · norm_num
    · apply List.map_congr_left
      intro k _
      simp only [Function.comp]
      congr 1
      congr 1
      push_cast
      ring

theorem one_lt_step {len maxSamples : ℕ} (hM : 0 < maxSamples) (hlt : maxSamples < len) :
    1 < (len : ℚ) / (maxSamples : ℚ) := by
  have hMq : (0 : ℚ) < (maxSamples : ℚ) := by exact_mod_cast hM
  rw [one_lt_div hMq]
  exact_mod_cast hlt

/-- With `0 < maxSamples < len` the executed index sequence coincides with the
collision-free one. -/
theorem sample_indices_eq_naive {len maxSamples : ℕ}
    (hM : 0 < maxSamples) (hlt : maxSamples < len) :
    sample_indices len maxSamples = naive_indices len maxSamples := by
  unfold sample_indices naive_indices
  rw [sampleIdxAux_closed_form len _ (one_lt_step hM hlt) maxSamples 0 [] le_rfl
    (by intro u hu; cases hu)]
  apply List.map_congr_left
  intro k _
  have hk0 : (0 : ℚ) ≤ (k : ℚ) * ((len : ℚ) / (maxSamples : ℚ)) :=
    mul_nonneg (Nat.cast_nonneg k)
      (div_nonneg (Nat.cast_nonneg len) (Nat.cast_nonneg maxSamples))
  rw [pyInt_of_nonneg hk0, zero_add]

/-- The selected indices are strictly increasing. -/
theorem naive_indices_pairwise {len maxSamples : ℕ}
    (hM : 0 < maxSamples) (hlt : maxSamples < len) :
    (naive_indices len maxSamples).Pairwise (· < ·) := by
  have hstep := one_lt_step hM hlt
  have hmono : ∀ a b : ℕ, a < b →
      (pyInt ((a : ℚ) * ((len : ℚ) / (maxSamples : ℚ)))).toNat
        < (pyInt ((b : ℚ) * ((len : ℚ) / (maxSamples : ℚ)))).toNat := by
    intro a b hab
    set s : ℚ := (len : ℚ) / (maxSamples : ℚ) with hs
    have hposs : (0 : ℚ) < s := lt_trans one_pos hstep
    have ha0 : (0 : ℚ) ≤ (a : ℚ) * s := mul_nonneg (Nat.cast_nonneg a) (le_of_lt hposs)
    have hb0 : (0 : ℚ) ≤ (b : ℚ) * s := mul_nonneg (Nat.cast_nonneg b) (le_of_lt hposs)
    have h1 : (a : ℚ) * s + 1 ≤ (b : ℚ) * s := by
      have hb : (a : ℚ) + 1 ≤ (b : ℚ) := by exact_mod_cast hab
      nlinarith
    have hfa : (0 : ℤ) ≤ ⌊(a : ℚ) * s⌋ := Int.floor_nonneg.mpr ha0
    have hfl : ⌊(a : ℚ) * s⌋ + 1 ≤ ⌊(b : ℚ) * s⌋ := by
      calc ⌊(a : ℚ) * s⌋ + 1 = ⌊(a : ℚ) * s + 1⌋ := (Int.floor_add_one _).symm
        _ ≤ ⌊(b : ℚ) * s⌋ := Int.floor_le_floor h1
    rw [pyInt_of_nonneg ha0, pyInt_of_nonneg hb0]
    omega
  unfold naive_indices
  exact List.pairwise_map.mpr
    ((List.pairwise_lt_range maxSamples).imp (fun hab => hmono _ _ hab))

/-- Every selected index is in range. -/
theorem naive_indices_lt_len {len maxSamples : ℕ}
    (hM : 0 < maxSamples) (hlt : maxSamples < len) :
    ∀ i ∈ naive_indices len maxSamples, i < len := by
  unfold naive_indices
  intro i hi
  rcases List.mem_map.mp hi with ⟨k, hk, rfl⟩
  have hkM : k < maxSamples := List.mem_range.mp hk
  have hMq : (0 : ℚ) < (maxSamples : ℚ) := by exact_mod_cast hM
  have hlen0 : (0 : ℚ) < (len : ℚ) := by
    have : 0 < len := lt_trans hM hlt
    exact_mod_cast this
  have hval : (k : ℚ) * ((len : ℚ) / (maxSamples : ℚ)) < (len : ℚ) := by
    rw [mul_div_assoc', div_lt_iff₀ hMq]
    have : (k : ℚ) < (maxSamples : ℚ) := by exact_mod_cast hkM
    nlinarith
  have hnn : (0 : ℚ) ≤ (k : ℚ) * ((len : ℚ) / (maxSamples : ℚ)) := by positivity
  rw [pyInt_of_nonneg hnn]
  have : ⌊(k : ℚ) * ((len : ℚ) / (maxSamples : ℚ))⌋ < (len : ℤ) := by
    apply Int.floor_lt.mpr
    exact_mod_cast hval
  omega

theorem map_getD_eq_pmap {α : Type} (l : List α) (d : α) :
    ∀ (is : List ℕ) (hlt : ∀ i ∈ is, i < l.length),
      is.map (fun i => l.getD i d)
        = (is.pmap (fun i h => (⟨i, h⟩ : Fin l.length)) hlt).map
            (fun (j : Fin l.length) => l[j]) := by
  intro is
  induction is with
  | nil => intro hlt; rfl
  | cons a as ih =>
    intro hlt
    simp only [List.map_cons, List.pmap]
    have hmem : a < l.length := hlt a (List.mem_cons_self a as)
    rw [ih (fun i hi => hlt i (List.mem_cons_of_mem a hi))]
    congr 1
    simp [List.getD_eq_getElem?_getD, List.getElem?_eq_getElem hmem]

/-- Strictly increasing in-range indices select a sublist. -/
theorem map_getD_sublist {α : Type} (l : List α) (d : α) (is : List ℕ)
    (hinc : is.Pairwise (· < ·)) (hlt : ∀ i ∈ is, i < l.length) :
    (is.map (fun i => l.getD i d)).Sublist l := by
  rw [map_getD_eq_pmap l d is hlt]
  apply List.map_getElem_sublist
  rw [List.pairwise_pmap]
  exact hinc.imp (by intro a b hab h1 h2; exact Fin.mk_lt_mk.mpr hab)

/-- With a positive cap the sampler never raises: it returns a list of length
`min N M`, returns the input unchanged when `M ≥ N`, and always returns an
order-preserving selection (a sublist) of the input. -/
theorem evenly_sample_spec {α : Type} (items : List α) (maxSamples : ℕ) (dflt : α)
    (hM : 1 ≤ maxSamples) :
    ∃ l, evenly_sample items maxSamples dflt = some l
      ∧ l.length = min items.length maxSamples
      ∧ (items.length ≤ maxSamples → l = items)
      ∧ l.Sublist items := by
  by_cases hle : items.length ≤ maxSamples
  · refine ⟨items, ?_, ?_, fun _ => rfl, List.Sublist.refl items⟩
    · unfold evenly_sample
      rw [if_pos hle]
    · omega
  · have hlt : maxSamples < items.length := Nat.lt_of_not_le (fun h => hle (by omega))
    refine ⟨(sample_indices items.length maxSamples).map (fun i => items.getD i dflt),
      ?_, ?_, fun h => absurd h hle, ?_⟩
    · unfold evenly_sample
      rw [if_neg hle, if_neg (by omega)]
    · rw [List.length_map]
      unfold sample_indices
      rw [sampleIdxAux_length]
      omega
    · rw [sample_indices_eq_naive hM hlt]
      exact map_getD_sublist items dflt _ (naive_indices_pairwise hM hlt)
        (naive_indices_lt_len hM hlt)

theorem evenly_sample_length {α : Type} {items l : List α} {maxSamples : ℕ} {dflt : α}
    (h : evenly_sample items maxSamples dflt = some l) (hM : 1 ≤ maxSamples) :
    l.length = min items.length maxSamples := by
  rcases evenly_sample_spec items maxSamples dflt hM with ⟨l', hl', hlen, _, _⟩
  rw [hl'] at h
  cases h
  exact hlen

/-! ### Stop words & keyword extraction (`keywords_from_texts`)

`TOKEN_PATTERN = re.compile(r"[a-zA-Z]{3,}")` over the lower-cased text:
maximal runs of ASCII letters, keeping those of length ≥ 3.  `Counter` counts
with first-occurrence order; `most_common` is a stable sort by descending
count. -/

def BASE_STOP_WORDS : List String :=
  ["the", "and", "for", "with", "that", "this", "from", "have", "has", "had", "was", "were",
   "are", "been", "but", "not", "you", "your", "they", "their", "them", "our", "out", "into",
   "about", "just", "very", "much", "more", "than", "also", "can", "will", "would", "could",
   "should", "one", "two", "three", "get", "got", "make", "made", "even", "still", "over",
   "well", "per", "each", "every", "across", "because", "while", "when", "where", "what",
   "who", "why", "how", "does", "did", "doing", "done", "other", "another", "such", "like",
   "some", "any", "all", "many", "most", "few", "new", "old"]

def CUSTOM_STOP_WORDS : List String :=
  ["rio", "tinto", "riotinto", "rt", "company", "work", "working", "worked", "role", "job",
   "jobs", "people", "person", "team", "teams", "employee", "employees", "staff", "manager",
   "management", "business", "place", "industry", "site", "sites", "mine", "mines", "mining",
   "year", "years", "month", "months", "day", "days", "time", "times", "pros", "cons",
   "advice", "summary", "review", "reviews"]

def STOP_WORDS : List String := BASE_STOP_WORDS ++ CUSTOM_STOP_WORDS

/-- Python string lower-casing (per-character, ASCII-relevant part). -/
def py_lower (s : String) : String := String.mk (s.data.map Char.toLower)

def isLowerAlpha (c : Char) : Bool := 97 ≤ c.toNat && c.toNat ≤ 122

/-- Maximal runs of letters in a character stream (`re.findall` of
`[a-zA-Z]+`); `cur` is the current run, reversed. -/
def alphaRuns : List Char → List Char → List (List Char)
  | [], cur => if cur.isEmpty then [] else [cur.reverse]
  | c :: cs, cur =>
    if isLowerAlpha c then alphaRuns cs (c :: cur)
    else if cur.isEmpty then alphaRuns cs [] else cur.reverse :: alphaRuns cs []

/-- `TOKEN_PATTERN.findall(t.lower())`: letter runs of length ≥ 3 in the
lower-cased text. -/
def findTokens (t : String) : List String :=
  ((alphaRuns (py_lower t).data []).filter (fun r => 3 ≤ r.length)).map String.mk

/-- Occurrence counting in first-encounter order (Python `Counter` over an
insertion-ordered dict). -/
def addCount : List (String × ℕ) → String → List (String × ℕ)
  | [], t => [(t, 1)]
  | (s, c) :: rest, t =>
    if s = t then (s, c + 1) :: rest else (s, c) :: addCount rest t

def countsInOrder (tokens : List String) : List (String × ℕ) :=
  tokens.foldl addCount []

/-- `keywords_from_texts(texts, top_k)`: token frequencies over all texts with
stop words removed, then `most_common(top_k)` (stable descending sort). -/
def keywords_from_texts (texts : List String) (top_k : ℕ) : List String :=
  let tokens := texts.flatMap (fun t => (findTokens t).filter (fun tok => tok ∉ STOP_WORDS))
  (((countsInOrder tokens).mergeSort (fun a b => decide (b.2 ≤ a.2))).take top_k).map
    (fun p => p.1)

/-! ### Claim Summarizer (`summarize_comments`) -/

/-- Python `s[:n]`: the first `n` characters. -/
def py_take (s : String) (n : ℕ) : String := String.mk (s.data.take n)

def isPyWS (c : Char) : Bool := c = ' ' || c = '\t' || c = '\n' || c = '\r'

/-- Python `s.strip()` (ASCII whitespace; the pipeline's inputs are ASCII). -/
def py_strip (s : String) : String :=
  String.mk (((s.data.dropWhile isPyWS).reverse.dropWhile isPyWS).reverse)

/-- `s.splitlines()` restricted to the `\n` separator. -/
def splitNl : List Char → List Char → List String
  | [], cur => [String.mk cur.reverse]
  | c :: cs, cur =>
    if c = '\n' then String.mk cur.reverse :: splitNl cs [] else splitNl cs (c :: cur)

def py_splitlines (s : String) : List String := splitNl s.data []

/-- `line.startswith("-")`. -/
def startsWithDash (s : String) : Bool :=
  match s.data with
  | c :: _ => c = '-'
  | [] => false

/-- Outcome of one `chat.completions.create` call, as seen by the caller:
either the returned message content (after the `or ""`), or a raised
exception. -/
inductive GenOut
  | ok (content : String)
  | err
deriving DecidableEq

/-- The body of the per-comment loop in `summarize_comments`: parse bullet
lines from the model output; on no bullets or on an exception fall back to the
truncated comment.  Always returns at least one claim. -/
def summarize_one (text : String) (g : GenOut) : List String :=
  match g with
  | .err => ["- " ++ py_take text 150]
  | .ok content =>
    let lines := ((py_splitlines (py_strip content)).map py_strip).filter
      (fun ln => startsWithDash ln)
    if lines.isEmpty then ["- " ++ py_take text 150] else lines

/-- The `for idx, text in enumerate(comments_to_use, 1)` loop, extending
`summaries` with each comment's claims; `gen i` is the outcome of the i-th
generation call. -/
def summarizeLoop (gen : ℕ → GenOut) : ℕ → List String → List String
  | _, [] => []
  | i, t :: ts => summarize_one t (gen i) ++ summarizeLoop gen (i + 1) ts

/-- `summarize_comments(comments, client, ..., max_summaries)`.  `none` models
the (unreachable in the pipeline, which passes `max_summaries = 300`)
`ZeroDivisionError` from `_evenly_sample`. -/
def summarize_comments (comments : List String) (gen : ℕ → GenOut)
    (max_summaries : ℕ) : Option (List String) :=
  if comments.isEmpty then some []
  else (evenly_sample comments max_summaries "").map (fun cu => summarizeLoop gen 1 cu)

theorem summarize_one_ne_nil (text : String) (g : GenOut) : summarize_one text g ≠ [] := by
  cases g with
  | err => simp [summarize_one]
  | ok content =>
    dsimp only [summarize_one]
    by_cases h : (((py_splitlines (py_strip content)).map py_strip).filter
        (fun ln => startsWithDash ln)).isEmpty
    · rw [if_pos h]
      simp
    · rw [if_neg h]
      intro hc
      apply h
      rw [hc]
      rfl

theorem summarizeLoop_length (gen : ℕ → GenOut) :
    ∀ (cu : List String) (i : ℕ), cu.length ≤ (summarizeLoop gen i cu).length := by
  intro cu
  induction cu with
  | nil => intro i; simp [summarizeLoop]
  | cons t ts ih =>
    intro i
    have h1 : 1 ≤ (summarize_one t (gen i)).length := by
      rcases h : summarize_one t (gen i) with _ | ⟨a, l⟩
      · exact absurd h (summarize_one_ne_nil t (gen i))
      · simp
    simp only [summarizeLoop, List.length_append, List.length_cons]
    have := ih (i + 1)
    omega

/-- For a non-empty comment list and a positive cap, the summarizer returns
(never raises) a non-empty claim list with at least one claim per sampled
comment. -/
theorem summarize_comments_spec (comments : List String) (gen : ℕ → GenOut)
    (max_summaries : ℕ) (hne : comments ≠ []) (hM : 1 ≤ max_summaries) :
    ∃ s, summarize_comments comments gen max_summaries = some s
      ∧ min comments.length max_summaries ≤ s.length ∧ s ≠ [] := by
  rcases evenly_sample_spec comments max_summaries "" hM with ⟨cu, hcu, hlen, _, _⟩
  refine ⟨summarizeLoop gen 1 cu, ?_, ?_, ?_⟩
  · unfold summarize_comments
    rw [if_neg (by simpa using hne), hcu]
    rfl
  · have := summarizeLoop_length gen cu 1
    omega
  · have hlen0 : comments.length ≠ 0 := fun h => hne (List.length_eq_zero.mp h)
    have hml := summarizeLoop_length gen cu 1
    intro hc
    rw [hc] at hml
    simp only [List.length_nil, Nat.le_zero] at hml
    omega

/-! ### Embedding Client (`embed_texts`) -/

/-- Outcome of one `client.embeddings.create` call: the per-text vectors, or a
raised exception.  `embed_texts` has no try/except, so the error case
propagates to the caller. -/
inductive EmbedOut
  | ok (vectors : List (List ℚ))
  | err

/-- `embed_texts(texts, client)`: empty input short-circuits to `[]` with no
call; otherwise the call's outcome is returned as-is (including a raised
exception). -/
def embed_texts (texts : List String) (call : List String → EmbedOut) : EmbedOut :=
  if texts.isEmpty then .ok [] else call texts

/-! ### Cluster Engine (`cluster_summaries`) -/

/-- One cluster dict:
`{"cluster_id", "size", "summaries", "example_summaries", "keywords"}`. -/
structure ClusterRec where
  cluster_id : ℤ
  size : ℕ
  summaries : List String
  example_summaries : List String
  keywords : List String
deriving DecidableEq

/-- The single-cluster fallback record (built identically at all three
fallback sites in `cluster_summaries`). -/
def single_cluster (summaries : List String) : ClusterRec :=
  { cluster_id := 0
    size := summaries.length
    summaries := summaries
    example_summaries := summaries.take 5
    keywords := keywords_from_texts summaries 8 }

/-- Outcome of `KMeans(...).fit_predict(embeddings)`: one label per embedding
vector, or a raised exception. -/
inductive KMFit
  | ok (labels : List ℤ)
  | failure
deriving DecidableEq

/-- `defaultdict(list)` grouping: append `s` to the group of `lbl`, keeping
first-encounter key order. -/
def addToGroup : List (ℤ × List String) → ℤ → String → List (ℤ × List String)
  | [], lbl, s => [(lbl, [s])]
  | (l, xs) :: rest, lbl, s =>
    if l = lbl then (l, xs ++ [s]) :: rest else (l, xs) :: addToGroup rest lbl s

/-- `for summary, lbl in zip(summaries, labels): clusters[int(lbl)].append(summary)`. -/
def groupByLabel (pairs : List (String × ℤ)) : List (ℤ × List String) :=
  pairs.foldl (fun acc p => addToGroup acc p.2 p.1) []

/-- One entry of `cluster_list`:
`{"cluster_id": cid, "size": len(items), "summaries": items, ...}`. -/
def clusterOfGroup (g : ℤ × List String) : ClusterRec :=
  { cluster_id := g.1
    size := g.2.length
    summaries := g.2
    example_summaries := g.2.take 5
    keywords := keywords_from_texts g.2 8 }

/-- `cluster_summaries(summaries, embeddings)`.  `kmeansAvailable` models
whether the sklearn import succeeded (`KMeans is None` otherwise); `fit` is
the outcome of the `fit_predict` call.  Thresholds are the module constants
`MIN_CLUSTER_SUMMARIES = 12`, `MIN_POINTS_PER_CLUSTER = 18`,
`MAX_CLUSTERS = 5`. -/
def cluster_summaries (summaries : List String) (_embeddings : List (List ℚ))
    (kmeansAvailable : Bool) (fit : KMFit) : List ClusterRec :=
  let n := summaries.length
  if n = 0 then []
  else if kmeansAvailable = false ∨ n < 12 then [single_cluster summaries]
  else
    -- k = max(2, min(MAX_CLUSTERS, n // MIN_POINTS_PER_CLUSTER)), clamped;
    -- it only parameterizes the KMeans call, whose outcome `fit` abstracts.
    let k0 := max 2 (min 5 (n / 18))
    let k1 := if k0 ≤ 1 then 2 else k0
    let _k := if k1 > n then n else k1
    match fit with
    | .failure => [single_cluster summaries]
    | .ok labels =>
      let groups := groupByLabel (summaries.zip labels)
      let cl := groups.map clusterOfGroup
      cl.mergeSort (fun a b => decide (b.size ≤ a.size))

/-! #### Cluster Engine lemmas -/

theorem addToGroup_flat (acc : List (ℤ × List String)) (lbl : ℤ) (s : String) :
    List.Perm ((addToGroup acc lbl s).flatMap (fun g => g.2))
      ((acc.flatMap (fun g => g.2)) ++ [s]) := by
  induction acc with
  | nil => simp [addToGroup]
  | cons p rest ih =>
    rcases p with ⟨l, xs⟩
    by_cases h : l = lbl
    · simp only [addToGroup, if_pos h, List.flatMap_cons]
      rw [List.append_assoc, List.append_assoc]
      exact List.Perm.append_left xs List.perm_append_comm
    · simp only [addToGroup, if_neg h, List.flatMap_cons]
      rw [List.append_assoc]
      exact List.Perm.append_left xs ih

theorem groupByLabel_foldl_flat (pairs : List (String × ℤ)) :
    ∀ acc : List (ℤ × List String),
      List.Perm ((pairs.foldl (fun a p => addToGroup a p.2 p.1) acc).flatMap (fun g => g.2))
        ((acc.flatMap (fun g => g.2)) ++ pairs.map (fun p => p.1)) := by
  induction pairs with
  | nil => intro acc; simp
  | cons p ps ih =>
    intro acc
    simp only [List.foldl_cons, List.map_cons]
    have h1 := ih (addToGroup acc p.2 p.1)
    have h2 := (addToGroup_flat acc p.2 p.1).append_right (ps.map (fun q => q.1))
    have h3 := h1.trans h2
    rw [List.append_assoc, List.singleton_append] at h3
    exact h3

/-- The groups' members concatenated are a permutation of the zipped firsts. -/
theorem groupByLabel_flat (pairs : List (String × ℤ)) :
    List.Perm ((groupByLabel pairs).flatMap (fun g => g.2)) (pairs.map (fun p => p.1)) := by
  have := groupByLabel_foldl_flat pairs []
  simpa using this

theorem mergeSortSize_trans : ∀ (a b c : ClusterRec),
    decide (b.size ≤ a.size) → decide (c.size ≤ b.size) → decide (c.size ≤ a.size) := by
  intro a b c h1 h2
  simp only [decide_eq_true_eq] at *
  omega

theorem mergeSortSize_total : ∀ (a b : ClusterRec),
    decide (b.size ≤ a.size) || decide (a.size ≤ b.size) := by
  intro a b
  simp only [Bool.or_eq_true, decide_eq_true_eq]
  omega

/-- The length of a flat-mapped list is the sum of the member lengths. -/
theorem length_flatMap_eq {α β : Type} (l : List α) (f : α → List β) :
    (l.flatMap f).length = (l.map (fun a => (f a).length)).sum := by
  rw [List.flatMap_def, List.length_flatten, List.map_map]
  rfl

/-- Partition invariant of the Cluster Engine, covering all paths: the member
lists of the returned clusters are a permutation of the input (each claim in
exactly one cluster), the sizes sum to the input count, the `size` field is
the member count, and the list is sorted by descending size. -/
theorem cluster_summaries_partition (summaries : List String)
    (embeddings : List (List ℚ)) (avail : Bool) (fit : KMFit)
    (hlab : ∀ labels, fit = KMFit.ok labels → labels.length = summaries.length) :
    List.Perm
        ((cluster_summaries summaries embeddings avail fit).flatMap (fun c => c.summaries))
        summaries
      ∧ ((cluster_summaries summaries embeddings avail fit).map (fun c => c.size)).sum
          = summaries.length
      ∧ (cluster_summaries summaries embeddings avail fit).Pairwise
          (fun a b => b.size ≤ a.size)
      ∧ ∀ c ∈ cluster_summaries summaries embeddings avail fit,
          c.size = c.summaries.length := by
  unfold cluster_summaries
  by_cases h0 : summaries.length = 0
  · have hnil : summaries = [] := List.length_eq_zero.mp h0
    subst hnil
    simp
  · rw [if_neg h0]
    by_cases hfb : avail = false ∨ summaries.length < 12
    · rw [if_pos hfb]
      refine ⟨by simp [single_cluster], by simp [single_cluster], ?_, ?_⟩
      · simp
      · intro c hc
        rcases List.mem_singleton.mp hc with rfl
        rfl
    · rw [if_neg hfb]
      cases fit with
      | failure =>
        refine ⟨by simp [single_cluster], by simp [single_cluster], ?_, ?_⟩
        · simp
        · intro c hc
          rcases List.mem_singleton.mp hc with rfl
          rfl
      | ok labels =>
        simp only
        have hlen : labels.length = summaries.length := hlab labels rfl
        set pairs := summaries.zip labels with hpairs
        set groups := groupByLabel pairs with hgroups
        set cl := groups.map clusterOfGroup with hcl
        set sorted := cl.mergeSort (fun a b => decide (b.size ≤ a.size)) with hsorted
        have hperm : List.Perm sorted cl := List.mergeSort_perm cl _
        have hfst : pairs.map (fun p => p.1) = summaries := by
          rw [hpairs]
          exact List.map_fst_zip summaries labels (by omega)
        have hclflat : cl.flatMap (fun c => c.summaries) = groups.flatMap (fun g => g.2) := by
          rw [hcl, List.flatMap_map]
          rfl
        have hmain : List.Perm (sorted.flatMap (fun c => c.summaries)) summaries := by
          have h1 := hperm.flatMap_right (fun c => c.summaries)
          rw [hclflat] at h1
          exact h1.trans ((groupByLabel_flat pairs).trans (by rw [hfst]))
        refine ⟨hmain, ?_, ?_, ?_⟩
        · have h2 : (sorted.map (fun c => c.size)).sum = (cl.map (fun c => c.size)).sum :=
            (hperm.map (fun c => c.size)).sum_eq
          have h3 : cl.map (fun c => c.size) = groups.map (fun g => g.2.length) := by
            rw [hcl, List.map_map]
            rfl
          have h4 : (groups.map (fun g => g.2.length)).sum
              = (groups.flatMap (fun g => g.2)).length := by
            rw [length_flatMap_eq]
          have h5 : (groups.flatMap (fun g => g.2)).length = summaries.length := by
            rw [(groupByLabel_flat pairs).length_eq, hfst]
          rw [h2, h3, h4, h5]
        · have hs := List.sorted_mergeSort mergeSortSize_trans mergeSortSize_total cl
          rw [← hsorted] at hs
          exact hs.imp (fun h => by simpa using h)
        · intro c hc
          have hmem : c ∈ cl := (hperm.mem_iff).mp hc
          rcases List.mem_map.mp hmem with ⟨g, _, rfl⟩
          rfl

/-- Any of the three degradation conditions (liveness of sklearn, sparse
input, runtime clustering failure) yields exactly the single fallback
cluster, provided the input is non-empty. -/
theorem cluster_summaries_fallback (summaries : List String)
    (embeddings : List (List ℚ)) (avail : Bool) (fit : KMFit)
    (hne : summaries ≠ [])
    (h : avail = false ∨ summaries.length < 12 ∨ fit = KMFit.failure) :
    cluster_summaries summaries embeddings avail fit = [single_cluster summaries] := by
  unfold cluster_summaries
  have h0 : ¬ summaries.length = 0 := fun hh => hne (List.length_eq_zero.mp hh)
  rw [if_neg h0]
  by_cases hfb : avail = false ∨ summaries.length < 12
  · rw [if_pos hfb]
  · rw [if_neg hfb]
    have hfail : fit = KMFit.failure := by
      rcases h with h | h | h
      · exact absurd (Or.inl h) hfb
      · exact absurd (Or.inr h) hfb
      · exact h
    subst hfail
    rfl

/-! ### Insight Synthesizer (`generate_theme_insight_from_clusters`) -/

/-- `build_cluster_prompt_block(clusters)`. -/
def build_cluster_prompt_block (clusters : List ClusterRec) : String :=
  String.intercalate "\n" (clusters.flatMap (fun c =>
    ["Sub-topic " ++ toString c.cluster_id ++ " (approx. " ++ toString c.size ++ " comments)",
     "  Keywords: " ++
       (if c.keywords.isEmpty then "N/A" else String.intercalate ", " c.keywords),
     "  Example summaries:"]
    ++ (c.example_summaries.take 3).map (fun ex => "    " ++ ex)
    ++ [""]))

/-- The parsed `recommendations` field of the JSON object extracted from the
generation response: absent (or JSON `null`), a scalar string, or a list of
strings. -/
inductive RecsField
  | absent
  | rstr (s : String)
  | rlist (l : List String)
deriving DecidableEq

/-- Outcome of the synthesis generation call as seen after the
brace-matching JSON extraction: a raised exception (including `json.loads`
failures inside the `try`), a response with no top-level JSON object, or the
parsed object's `summary`/`recommendations` fields. -/
inductive SynthOut
  | err
  | okRaw (text : String)
  | okJson (summary : String) (recs : RecsField)
deriving DecidableEq

/-- `recs = data.get("recommendations") or []`, then the
`isinstance(recs, list)` coercion.  A falsy field (`None`, `""`, `[]`) becomes
`[]`; a list keeps its non-empty stripped entries; a truthy non-list scalar
becomes the one-element list of its stripped text (which may be `""`). -/
def coerceRecs : RecsField → List String
  | .absent => []
  | .rstr s => if s = "" then [] else [py_strip s]
  | .rlist l => if l = [] then [] else (l.map py_strip).filter (fun r => r ≠ "")

/-- `generate_theme_insight_from_clusters(...)`.  Returns the
`{"summary", "recommendations"}` pair and whether the generation call was
made.  The theme/sentiment arguments only feed the prompt text, which is
consumed by the external call that `synth` abstracts. -/
def generate_theme_insight_from_clusters (clusters : List ClusterRec)
    (total_comments : ℕ) (synth : SynthOut) : (String × List String) × Bool :=
  if clusters.isEmpty || total_comments == 0 then (("", []), false)
  else
    let _cluster_block := build_cluster_prompt_block clusters
    match synth with
    | .err => (("", []), true)
    | .okRaw text => ((py_take text 300, []), true)
    | .okJson summary recs => ((py_strip summary, (coerceRecs recs).take 3), true)

/-! ### Pipeline Orchestrator (`generate_insights_for_theme`, `main`) -/

/-- The final Insight record: the four fields written per theme key. -/
structure Insights where
  positive_summary : String
  negative_summary : String
  positive_recommendations : List String
  negative_recommendations : List String
deriving DecidableEq

/-- All external-call outcomes a single theme's pipeline run can observe. -/
structure Oracles where
  genP : ℕ → GenOut
  genN : ℕ → GenOut
  embed : List String → EmbedOut
  kmAvail : Bool
  fitP : KMFit
  fitN : KMFit
  synthP : SynthOut
  synthN : SynthOut

/-- One sentiment side of `generate_insights_for_theme`: summarize, embed,
cluster, synthesize.  `Except.error ()` models an exception escaping the
side (only `embed_texts` can raise here; `summarize_comments` catches
per-comment errors and the synthesizer catches its own). -/
def process_side (contents : List String) (gen : ℕ → GenOut)
    (embed : List String → EmbedOut) (kmAvail : Bool) (fit : KMFit)
    (synth : SynthOut) : Except Unit (String × List String) :=
  if contents.isEmpty then .ok ("", [])
  else
    match summarize_comments contents gen 300 with
    | none => .error ()
    | some summaries =>
      if summaries.isEmpty then .ok ("", [])
      else
        match embed_texts summaries embed with
        | .err => .error ()
        | .ok embs =>
          let clusters := cluster_summaries summaries embs kmAvail fit
          .ok (generate_theme_insight_from_clusters clusters contents.length synth).1

/-- `generate_insights_for_theme(theme_type, theme_name, pos, neg, client)`:
positive side then negative side; an uncaught exception propagates. -/
def generate_insights_for_theme (pos neg : List String) (o : Oracles) :
    Except Unit Insights := do
  let p ← process_side pos o.genP o.embed o.kmAvail o.fitP o.synthP
  let n ← process_side neg o.genN o.embed o.kmAvail o.fitN o.synthN
  return { positive_summary := p.1
           negative_summary := n.1
           positive_recommendations := p.2
           negative_recommendations := n.2 }

/-- The theme loop of `main()`: fetch content; skip themes with no positive
and no negative comments (`continue`); run the pipeline inside the per-theme
`try`, skipping the theme on an exception; otherwise record the Insight under
the key `f"{theme_type}_{theme_name}"`. -/
def run_themes (themes : List (String × String))
    (content : String → String → List String × List String)
    (orac : String → String → Oracles) : List (String × Insights) :=
  match themes with
  | [] => []
  | (tt, tn) :: rest =>
    let pn := content tt tn
    if pn.1.isEmpty && pn.2.isEmpty then run_themes rest content orac
    else
      match generate_insights_for_theme pn.1 pn.2 (orac tt tn) with
      | .error _ => run_themes rest content orac
      | .ok ins => (tt ++ "_" ++ tn, ins) :: run_themes rest content orac

/-! ### Presentation lookup (`routes/analysis.py :: get_theme_insights`) -/

/-- The absent-key default the route returns (note: NOT empty summaries). -/
def default_theme_insights : Insights :=
  { positive_summary := "No insights available for this theme."
    negative_summary := "No insights available for this theme."
    positive_recommendations := []
    negative_recommendations := [] }

/-- `get_theme_insights`: exact key lookup `f"{theme_type}_{theme_name}"` in
the loaded table, defaulting to `default_theme_insights`. -/
def get_theme_insights (table : List (String × Insights))
    (theme_type theme_name : String) : Insights :=
  match table.lookup (theme_type ++ "_" ++ theme_name) with
  | some i => i
  | none => default_theme_insights

/-! ### Legacy pipeline (`generate_theme_insights.py :: generate_insights_for_theme`)

Only the per-side generation/fallback behaviour is needed by the claims.  The
parsed `recommendations` field is modelled as a JSON list (absent ⇒ `[]`,
then `[:2]`); a scalar value, which Python would slice to its first two
characters, is not exercised by any claim. -/

/-- Outcome of one legacy generation call after JSON extraction. -/
inductive LegacyOut
  | err
  | okRaw (text : String)
  | okJson (summary : String) (recs : Option (List String))
deriving DecidableEq

/-- One sentiment side of the legacy `generate_insights_for_theme`: skipped if
there is no content; on a JSON response takes `summary` and the first two
recommendations; with no JSON object takes `response_text[:200]`; on an
exception sets the summary to the fixed placeholder
`'Unable to generate insights at this time.'`. -/
def legacy_generate_side (contents : List String) (call : LegacyOut) :
    String × List String :=
  if contents.isEmpty then ("", [])
  else
    match call with
    | .err => ("Unable to generate insights at this time.", [])
    | .okRaw text => (py_take text 200, [])
    | .okJson summary recs => (summary, (recs.getD []).take 2)

/-! ### Concrete fixtures for witnesses and counterexamples -/

theorem isEmpty_false_of_ne_nil {α : Type} {l : List α} (h : l ≠ []) :
    l.isEmpty = false := by
  cases l with
  | nil => exact absurd rfl h
  | cons a l => rfl

/-- Oracle where every external call fails (in particular every embedding
call raises). -/
def oracle_embed_fail : Oracles :=
  { genP := fun _ => GenOut.err
    genN := fun _ => GenOut.err
    embed := fun _ => EmbedOut.err
    kmAvail := false
    fitP := KMFit.failure
    fitN := KMFit.failure
    synthP := SynthOut.err
    synthN := SynthOut.err }

/-- Oracle where the embedding call succeeds (one vector per text) but
generation fails and sklearn is unavailable. -/
def oracle_stub_ok : Oracles :=
  { genP := fun _ => GenOut.err
    genN := fun _ => GenOut.err
    embed := fun ts => EmbedOut.ok (ts.map (fun _ => ([] : List ℚ)))
    kmAvail := false
    fitP := KMFit.failure
    fitN := KMFit.failure
    synthP := SynthOut.err
    synthN := SynthOut.err }

def content_one : String → String → List String × List String := fun _ _ => (["Great pay"], [])

def content_none : String → String → List String × List String := fun _ _ => ([], [])

def content_neg_one : String → String → List String × List String :=
  fun _ _ => ([], ["Slow promotions"])

def orac_embed_fail : String → String → Oracles := fun _ _ => oracle_embed_fail

def orac_stub_ok : String → String → Oracles := fun _ _ => oracle_stub_ok

def gen_err : ℕ → GenOut := fun _ => GenOut.err

def insights_empty : Insights :=
  { positive_summary := ""
    negative_summary := ""
    positive_recommendations := []
    negative_recommendations := [] }

def cluster0 : ClusterRec :=
  { cluster_id := 0
    size := 1
    summaries := ["x"]
    example_summaries := ["x"]
    keywords := [] }

/-! ## Claims -/

/-- C3 (amended): for every cap `M ≥ 1` the Sampler returns (without raising)
a list of length `min(N, M)` that preserves the original relative order (a
sublist of the input), and returns the input exactly when `M ≥ N`.  For
`M = 0` with a non-empty input the code raises `ZeroDivisionError` instead of
returning the empty list (see the counterexample). -/
theorem C3_sampler_length {α : Type} (items : List α) (maxSamples : ℕ) (dflt : α)
    (hM : 1 ≤ maxSamples) :
    ∃ l, evenly_sample items maxSamples dflt = some l
      ∧ l.length = min items.length maxSamples
      ∧ (items.length ≤ maxSamples → l = items)
      ∧ l.Sublist items :=
  evenly_sample_spec items maxSamples dflt hM

theorem C3_sampler_length_witness :
    ∃ l, evenly_sample (["a", "b", "c", "d", "e"] : List String) 2 "" = some l
      ∧ l.length = min (["a", "b", "c", "d", "e"] : List String).length 2
      ∧ ((["a", "b", "c", "d", "e"] : List String).length ≤ 2 → l = ["a", "b", "c", "d", "e"])
      ∧ l.Sublist ["a", "b", "c", "d", "e"] :=
  C3_sampler_length ["a", "b", "c", "d", "e"] 2 "" (by decide)

/-- C3 counterexample: `M = 0` on a one-element list does not yield the empty
result — the division `len(items) / max_samples` raises `ZeroDivisionError`
(a `none` outcome). -/
theorem C3_sampler_counterexample :
    evenly_sample (["only comment"] : List String) 0 "" = none
      ∧ evenly_sample (["only comment"] : List String) 0 "" ≠ some [] := by
  constructor
  · rfl
  · decide

/-- C10: for `0 < M < N` the sampled indices are exactly the collision-free
`int(k * step)` values: strictly increasing (hence pairwise distinct and
in-bounds), so the `while pos in used` advance never moves and no item is
returned twice. -/
theorem C10_sampler_indices_distinct {α : Type} (items : List α) (maxSamples : ℕ)
    (dflt : α) (h0 : 0 < maxSamples) (hlt : maxSamples < items.length) :
    evenly_sample items maxSamples dflt
        = some ((naive_indices items.length maxSamples).map (fun i => items.getD i dflt))
      ∧ sample_indices items.length maxSamples = naive_indices items.length maxSamples
      ∧ (naive_indices items.length maxSamples).Pairwise (· < ·)
      ∧ ∀ i ∈ naive_indices items.length maxSamples, i < items.length := by
  have heq := sample_indices_eq_naive h0 hlt
  refine ⟨?_, heq, naive_indices_pairwise h0 hlt, naive_indices_lt_len h0 hlt⟩
  unfold evenly_sample
  rw [if_neg (by omega), if_neg (by omega), heq]

theorem C10_sampler_indices_distinct_witness :
    evenly_sample (["a", "b", "c", "d", "e"] : List String) 2 "z"
        = some ((naive_indices (["a", "b", "c", "d", "e"] : List String).length 2).map
            (fun i => (["a", "b", "c", "d", "e"] : List String).getD i "z"))
      ∧ sample_indices (["a", "b", "c", "d", "e"] : List String).length 2
          = naive_indices (["a", "b", "c", "d", "e"] : List String).length 2
      ∧ (naive_indices (["a", "b", "c", "d", "e"] : List String).length 2).Pairwise (· < ·)
      ∧ ∀ i ∈ naive_indices (["a", "b", "c", "d", "e"] : List String).length 2,
          i < (["a", "b", "c", "d", "e"] : List String).length :=
  C10_sampler_indices_distinct ["a", "b", "c", "d", "e"] 2 "z" (by decide) (by decide)

/-- C4: on every non-empty batch (with `fit_predict` returning one label per
point) the returned clusters partition the claims — the concatenated members
are a permutation of the input, sizes sum to the batch count and equal the
member counts, and the list is sorted by descending size. -/
theorem C4_cluster_partition (summaries : List String) (embeddings : List (List ℚ))
    (avail : Bool) (fit : KMFit) (_hne : summaries ≠ [])
    (hlab : ∀ labels, fit = KMFit.ok labels → labels.length = summaries.length) :
    List.Perm
        ((cluster_summaries summaries embeddings avail fit).flatMap (fun c => c.summaries))
        summaries
      ∧ ((cluster_summaries summaries embeddings avail fit).map (fun c => c.size)).sum
          = summaries.length
      ∧ (cluster_summaries summaries embeddings avail fit).Pairwise
          (fun a b => b.size ≤ a.size)
      ∧ ∀ c ∈ cluster_summaries summaries embeddings avail fit,
          c.size = c.summaries.length :=
  cluster_summaries_partition summaries embeddings avail fit hlab

theorem C4_cluster_partition_witness :
    List.Perm
        ((cluster_summaries ["a", "b"] [[1], [2]] true
          (KMFit.ok [0, 1])).flatMap (fun c => c.summaries)) ["a", "b"]
      ∧ ((cluster_summaries ["a", "b"] [[1], [2]] true
          (KMFit.ok [0, 1])).map (fun c => c.size)).sum = (["a", "b"] : List String).length
      ∧ (cluster_summaries ["a", "b"] [[1], [2]] true
          (KMFit.ok [0, 1])).Pairwise (fun a b => b.size ≤ a.size)
      ∧ ∀ c ∈ cluster_summaries ["a", "b"] [[1], [2]] true (KMFit.ok [0, 1]),
          c.size = c.summaries.length :=
  C4_cluster_partition ["a", "b"] [[1], [2]] true (KMFit.ok [0, 1]) (by decide)
    (fun labels h => by cases h; rfl)

/-- C5 (amended): for every NON-EMPTY input, if the input is below the
minimum threshold (12), the clustering capability is unavailable, or the fit
errors at runtime, exactly one cluster containing all items is returned.  For
the empty input the engine returns an empty cluster list, not one cluster
(see the counterexample). -/
theorem C5_single_cluster_fallback (summaries : List String)
    (embeddings : List (List ℚ)) (avail : Bool) (fit : KMFit)
    (hne : summaries ≠ [])
    (h : avail = false ∨ summaries.length < 12 ∨ fit = KMFit.failure) :
    cluster_summaries summaries embeddings avail fit = [single_cluster summaries]
      ∧ (single_cluster summaries).summaries = summaries :=
  ⟨cluster_summaries_fallback summaries embeddings avail fit hne h, rfl⟩

theorem C5_single_cluster_fallback_witness :
    cluster_summaries ["a"] [] false KMFit.failure = [single_cluster ["a"]]
      ∧ (single_cluster ["a"]).summaries = ["a"] :=
  C5_single_cluster_fallback ["a"] [] false KMFit.failure (by decide) (Or.inl rfl)

/-- C5 counterexample: the empty input has `N = 0 < 12` and (here) an
unavailable clustering capability, yet the engine returns zero clusters, not
exactly one. -/
theorem C5_counterexample :
    (cluster_summaries ([] : List String) [] false KMFit.failure).length ≠ 1 := by
  decide

/-- C9 (amended): for every lookup of an absent key the route returns the
fixed default record whose two summaries are the placeholder
`'No insights available for this theme.'` (not the empty string) and whose
recommendation lists are empty. -/
theorem C9_absent_key_default (table : List (String × Insights)) (tt tn : String)
    (h : table.lookup (tt ++ "_" ++ tn) = none) :
    get_theme_insights table tt tn = default_theme_insights := by
  unfold get_theme_insights
  rw [h]

theorem C9_absent_key_default_witness :
    get_theme_insights [] "base_theme" "pay" = default_theme_insights :=
  C9_absent_key_default [] "base_theme" "pay" rfl

/-- C9 counterexample: the absent-key summaries are NOT empty strings. -/
theorem C9_counterexample :
    (get_theme_insights [] "base_theme" "pay").positive_summary ≠ ""
      ∧ (get_theme_insights [] "base_theme" "pay").positive_summary
          = "No insights available for this theme." := by
  constructor
  · decide
  · rfl

/-- C6: the Claim Summarizer never raises for any per-comment generation
outcome and always produces at least one claim per comment (the truncation
fallback), so for a non-empty comment batch (and the pipeline's positive cap)
its output is non-empty, with at least one claim per sampled comment. -/
theorem C6_summarizer_never_empty :
    (∀ (text : String) (g : GenOut), summarize_one text g ≠ [])
      ∧ ∀ (comments : List String) (gen : ℕ → GenOut) (max_summaries : ℕ),
          comments ≠ [] → 1 ≤ max_summaries →
          ∃ s, summarize_comments comments gen max_summaries = some s
            ∧ min comments.length max_summaries ≤ s.length ∧ s ≠ [] :=
  ⟨summarize_one_ne_nil,
   fun comments gen m hne hM => summarize_comments_spec comments gen m hne hM⟩

theorem C6_summarizer_never_empty_witness :
    summarize_one "Long shifts" GenOut.err ≠ []
      ∧ ∃ s, summarize_comments ["Long shifts"] gen_err 300 = some s
          ∧ min (["Long shifts"] : List String).length 300 ≤ s.length ∧ s ≠ [] :=
  ⟨C6_summarizer_never_empty.1 "Long shifts" GenOut.err,
   C6_summarizer_never_empty.2 ["Long shifts"] gen_err 300 (by decide) (by decide)⟩

/-- C7 (amended): the synthesizer's recommendations list always has length
≤ 3, and zero clusters or zero total comments yield exactly
`{summary: "", recommendations: []}` with no generation call made.  Entries
are guaranteed non-empty when the parsed `recommendations` field is a JSON
list or absent; a truthy non-list scalar that strips to the empty string
yields `[""]` (see the counterexample). -/
theorem C7_synthesizer_bounds :
    (∀ (clusters : List ClusterRec) (total : ℕ) (synth : SynthOut),
      ((generate_theme_insight_from_clusters clusters total synth).1.2).length ≤ 3)
      ∧ (∀ (clusters : List ClusterRec) (total : ℕ) (synth : SynthOut),
          clusters = [] ∨ total = 0 →
          generate_theme_insight_from_clusters clusters total synth = (("", []), false))
      ∧ (∀ (clusters : List ClusterRec) (total : ℕ) (s : String) (l : List String),
          ∀ r ∈ (generate_theme_insight_from_clusters clusters total
            (SynthOut.okJson s (RecsField.rlist l))).1.2, r ≠ "")
      ∧ (∀ (clusters : List ClusterRec) (total : ℕ) (s : String),
          ∀ r ∈ (generate_theme_insight_from_clusters clusters total
            (SynthOut.okJson s RecsField.absent)).1.2, r ≠ "") := by
  refine ⟨?_, ?_, ?_, ?_⟩
  · intro clusters total synth
    unfold generate_theme_insight_from_clusters
    by_cases hg : (clusters.isEmpty || total == 0) = true
    · rw [if_pos hg]
      simp
    · rw [if_neg hg]
      cases synth with
      | err => simp
      | okRaw t => simp
      | okJson s r =>
        have := List.length_take 3 (coerceRecs r)
        simp only
        omega
  · intro clusters total synth h
    unfold generate_theme_insight_from_clusters
    rw [if_pos]
    rcases h with h | h
    · subst h; simp
    · subst h; simp
  · intro clusters total s l r hr
    unfold generate_theme_insight_from_clusters at hr
    by_cases hg : (clusters.isEmpty || total == 0) = true
    · rw [if_pos hg] at hr
      simp at hr
    · rw [if_neg hg] at hr
      simp only at hr
      have hr2 := List.mem_of_mem_take hr
      simp only [coerceRecs] at hr2
      by_cases hl : l = []
      · rw [if_pos hl] at hr2
        simp at hr2
      · rw [if_neg hl] at hr2
        have := List.of_mem_filter hr2
        simpa using this
  · intro clusters total s r hr
    unfold generate_theme_insight_from_clusters at hr
    by_cases hg : (clusters.isEmpty || total == 0) = true
    · rw [if_pos hg] at hr
      simp at hr
    · rw [if_neg hg] at hr
      simp only at hr
      have hr2 := List.mem_of_mem_take hr
      simp [coerceRecs] at hr2

theorem C7_synthesizer_bounds_witness :
    generate_theme_insight_from_clusters [] 5 SynthOut.err = (("", []), false)
      ∧ (("a" : String) ≠ "") :=
  ⟨C7_synthesizer_bounds.2.1 [] 5 SynthOut.err (Or.inl rfl),
   C7_synthesizer_bounds.2.2.1 [cluster0] 1 "s" ["a"] "a" (by decide)⟩

/-- C7 counterexample: when the parsed `recommendations` field is the truthy
non-list scalar `" "`, the returned list is `[""]` — an empty string in the
output, refuting "contains only non-empty strings". -/
theorem C7_counterexample :
    ¬ (∀ r ∈ (generate_theme_insight_from_clusters [cluster0] 1
        (SynthOut.okJson "ok" (RecsField.rstr " "))).1.2, r ≠ "") := by
  decide

/-- C8 (amended): in the advanced pipeline's Insight Synthesizer
(`generate_theme_insight_from_clusters`) a failed generation call yields the
all-empty result without raising; in the legacy pipeline
(`generate_theme_insights.py`), also cited by the claim, a failed call
instead sets the summary to the non-empty placeholder
`'Unable to generate insights at this time.'` — neither path aborts the
theme. -/
theorem C8_synthesis_failure_fallback :
    (∀ (clusters : List ClusterRec) (total : ℕ),
      (generate_theme_insight_from_clusters clusters total SynthOut.err).1 = ("", []))
      ∧ (∀ contents : List String, contents ≠ [] →
          legacy_generate_side contents LegacyOut.err
            = ("Unable to generate insights at this time.", [])) := by
  constructor
  · intro clusters total
    unfold generate_theme_insight_from_clusters
    by_cases hg : (clusters.isEmpty || total == 0) = true
    · rw [if_pos hg]
    · rw [if_neg hg]
  · intro contents hne
    unfold legacy_generate_side
    rw [if_neg (by simp [isEmpty_false_of_ne_nil hne])]

theorem C8_synthesis_failure_fallback_witness :
    (generate_theme_insight_from_clusters [cluster0] 7 SynthOut.err).1 = ("", [])
      ∧ legacy_generate_side ["Slow hiring"] LegacyOut.err
          = ("Unable to generate insights at this time.", []) :=
  ⟨C8_synthesis_failure_fallback.1 [cluster0] 7,
   C8_synthesis_failure_fallback.2 ["Slow hiring"] (by decide)⟩

/-- C8 counterexample: at the claim's cited legacy code a failed generation
call leaves non-empty placeholder text in the affected summary, not empty
fields. -/
theorem C8_counterexample :
    (legacy_generate_side ["Months-long hiring"] LegacyOut.err).1 ≠ "" := by
  decide

/-- C1 (amended): an embedding-call failure is NOT converted into the Cluster
Engine's single-cluster fallback — `embed_texts` has no handler, so the
exception propagates past the Cluster Engine to the orchestrator's per-theme
handler, which skips the theme entirely: no Insight record is written for
it. -/
theorem C1_embedding_failure_skips_theme (pos neg : List String) (o : Oracles)
    (hpos : pos ≠ []) (hembed : ∀ ts, o.embed ts = EmbedOut.err) :
    generate_insights_for_theme pos neg o = Except.error ()
      ∧ ∀ (tt tn : String) (content : String → String → List String × List String)
          (orac : String → String → Oracles),
          content tt tn = (pos, neg) → orac tt tn = o →
          run_themes [(tt, tn)] content orac = [] := by
  have hps : process_side pos o.genP o.embed o.kmAvail o.fitP o.synthP
      = Except.error () := by
    rcases summarize_comments_spec pos o.genP 300 hpos (by omega) with ⟨s, hs, _, hsne⟩
    unfold process_side
    rw [if_neg (by simp [isEmpty_false_of_ne_nil hpos]), hs]
    simp only
    rw [if_neg (by simp [isEmpty_false_of_ne_nil hsne])]
    unfold embed_texts
    rw [if_neg (by simp [isEmpty_false_of_ne_nil hsne]), hembed s]
  have hpipe : generate_insights_for_theme pos neg o = Except.error () := by
    unfold generate_insights_for_theme
    rw [hps]
    rfl
  refine ⟨hpipe, ?_⟩
  intro tt tn content orac hc ho
  simp only [run_themes]
  rw [hc, ho]
  rw [if_neg (by simp [isEmpty_false_of_ne_nil hpos]), hpipe]

theorem C1_embedding_failure_skips_theme_witness :
    generate_insights_for_theme ["Great pay"] [] oracle_embed_fail = Except.error ()
      ∧ run_themes [("base_theme", "X")] content_one orac_embed_fail = [] := by
  have h := C1_embedding_failure_skips_theme ["Great pay"] [] oracle_embed_fail
    (by decide) (fun ts => rfl)
  exact ⟨h.1, h.2 "base_theme" "X" content_one orac_embed_fail rfl rfl⟩

/-- C1 counterexample: a theme whose only (positive) batch hits an embedding
failure produces NO Insight record at all — the key is absent from the
output table, refuting "never causes the theme ... to produce no Insight
record". -/
theorem C1_counterexample :
    run_themes [("base_theme", "X")] content_one orac_embed_fail = []
      ∧ List.lookup "base_theme_X"
          (run_themes [("base_theme", "X")] content_one orac_embed_fail) = none := by
  constructor
  · rfl
  · rfl

/-- C2 (amended): the orchestrator writes one Insight record (keyed
`"{kind}_{name}"`) per theme whose fetched content has at least one positive
or negative comment and whose pipeline completes without an unhandled
exception; a theme with 0 positive and 0 negative comments is skipped with
`continue` and NO record is written for it. -/
theorem C2_orchestrator_skips_empty_themes (tt tn : String) (pos neg : List String)
    (content : String → String → List String × List String)
    (orac : String → String → Oracles) (hc : content tt tn = (pos, neg)) :
    (pos = [] → neg = [] → run_themes [(tt, tn)] content orac = [])
      ∧ (∀ ins, generate_insights_for_theme pos neg (orac tt tn) = Except.ok ins →
          pos ≠ [] ∨ neg ≠ [] →
          run_themes [(tt, tn)] content orac = [(tt ++ "_" ++ tn, ins)]) := by
  constructor
  · intro hp hn
    subst hp
    subst hn
    simp only [run_themes]
    rw [hc]
    simp
  · intro ins hok hne
    have hcond : (pos.isEmpty && neg.isEmpty) = false := by
      rcases hne with h | h
      · simp [isEmpty_false_of_ne_nil h]
      · simp [isEmpty_false_of_ne_nil h]
    simp only [run_themes]
    rw [hc]
    rw [if_neg (by simp [hcond]), hok]

theorem C2_orchestrator_skips_empty_themes_witness :
    run_themes [("base_theme", "X")] content_neg_one orac_stub_ok
      = [("base_theme" ++ "_" ++ "X", insights_empty)] :=
  (C2_orchestrator_skips_empty_themes "base_theme" "X" [] ["Slow promotions"]
      content_neg_one orac_stub_ok rfl).2 insights_empty rfl (Or.inr (by decide))

/-- C2 counterexample: a theme with 0 positive and 0 negative comments is
skipped — no Insight record keyed `"base_theme_X"` (with empty fields or
otherwise) is written. -/
theorem C2_counterexample :
    run_themes [("base_theme", "X")] content_none orac_stub_ok = []
      ∧ List.lookup "base_theme_X"
          (run_themes [("base_theme", "X")] content_none orac_stub_ok) = none := by
  constructor
  · rfl
  · rfl

end ThemeInsight
